import Mathlib

/-
Verification of the terminal-agent repository (src/terminal_agent/terminal_agent.py).

Strings are modelled as lists of characters (Python str).  The three regular
expressions of TerminalAgent.parse_agent_response are hand-compiled to
executable functions: each is of the shape  LITERAL (.*?)(TERMINATORS|$)
under re.DOTALL, whose semantics is: find the first occurrence of the literal,
then capture lazily up to the first position where a terminator literal starts,
or where $ matches ($ in Python, without re.MULTILINE, matches at the end of
the string and also just before a trailing final newline).
-/

namespace TermAgent

/-- Python str whitespace test restricted to the ASCII whitespace characters
relevant here (space, tab, newline, carriage return, vertical tab, form feed). -/
def pyWs (c : Char) : Bool :=
  c = ' ' || c = '\t' || c = '\n' || c = '\r' || c = Char.ofNat 11 || c = Char.ofNat 12

/-- Removes trailing characters satisfying pyWs (Python str.rstrip). -/
def rstrip (s : List Char) : List Char :=
  (s.reverse.dropWhile pyWs).reverse

/-- Removes leading and trailing whitespace (Python str.strip). -/
def pstrip (s : List Char) : List Char :=
  (rstrip s).dropWhile pyWs

/-- Boolean test: the first list is a prefix of the second. -/
def leadsWith : List Char → List Char → Bool
  | [], _ => true
  | _ :: _, [] => false
  | a :: as, b :: bs => a = b && leadsWith as bs

/-- Index of the first occurrence of needle in t (re.search of a literal). -/
def firstOccur (needle : List Char) : List Char → Option Nat
  | [] => if leadsWith needle [] then some 0 else none
  | c :: rest =>
    if leadsWith needle (c :: rest) then some 0
    else (firstOccur needle rest).map (fun k => k + 1)

/-- Boolean substring test. -/
def hasSub (needle t : List Char) : Bool :=
  (firstOccur needle t).isSome

/-- Longest prefix of t that stops right before the first position where one of
the terminator literals starts; reaches the end of t when no terminator
occurs.  This is the specification-level reading: content up to the first
terminator or the end of the text. -/
def upTo (terms : List (List Char)) : List Char → List Char
  | [] => []
  | c :: rest =>
    if terms.any (fun tm => leadsWith tm (c :: rest)) then []
    else c :: upTo terms rest

/-- Lazy capture of  (.*?)(TERMINATORS|$)  under Python re.DOTALL semantics:
stops at the first position where a terminator literal starts, or where $
matches.  $ matches at the end of the string and also just before a final
trailing newline, hence the extra stop on the one-character suffix made of a
newline. -/
def captureLazy (terms : List (List Char)) : List Char → List Char
  | [] => []
  | c :: rest =>
    if terms.any (fun tm => leadsWith tm (c :: rest)) then []
    else if rest = [] && c = '\n' then []
    else c :: captureLazy terms rest

/-- Marker of the final-answer regex: the literal before the capture group. -/
def finalAnswerMarker : List Char := ("Final Answer: ").toList

/-- Fenced-block terminator of the final-answer regex. -/
def fenced : List Char := ("```").toList

/-- Marker of the action regex. -/
def actionMarker : List Char := ("Action: ").toList

/-- Terminator of the action capture. -/
def actionInputTerm : List Char := ("Action Input:").toList

/-- Marker of the action-input regex. -/
def actionInputMarker : List Char := ("Action Input: ").toList

/-- Terminators of the action-input capture. -/
def observationTerm : List Char := ("Observation:").toList

/-- Terminator Thought: of the action-input capture and the thought regex. -/
def thoughtTerm : List Char := ("Thought:").toList

/-- Marker of the thought regex. -/
def thoughtMarker : List Char := ("Thought: ").toList

/-- Terminator Action: of the thought capture. -/
def actionTerm : List Char := ("Action:").toList

/-- Terminator Final Answer: of the thought capture. -/
def finalAnswerTerm : List Char := ("Final Answer:").toList

/-- Result of TerminalAgent.parse_agent_response: either an AgentAction
(tool, tool_input, log) or an AgentFinish (return_values output, log). -/
inductive ParseResult where
  | action (tool tool_input log : List Char)
  | finish (output log : List Char)
deriving DecidableEq

/-- TerminalAgent.parse_agent_response.  Mirrors the source: first the
final-answer regex, then the thought / action / action-input regexes, and the
defensive fallback that treats the whole text as a final answer. -/
def parse_agent_response (text : List Char) : ParseResult × Bool :=
  match firstOccur finalAnswerMarker text with
  | some i =>
    let fa := pstrip (captureLazy [fenced] (text.drop (i + finalAnswerMarker.length)))
    (ParseResult.finish fa (finalAnswerMarker ++ fa), true)
  | none =>
    match firstOccur actionMarker text, firstOccur actionInputMarker text with
    | some j, some k =>
      let tool := pstrip (captureLazy [actionInputTerm] (text.drop (j + actionMarker.length)))
      let tool_input := pstrip (captureLazy [observationTerm, thoughtTerm]
        (text.drop (k + actionInputMarker.length)))
      let thought :=
        match firstOccur thoughtMarker text with
        | some m => pstrip (captureLazy [actionTerm, finalAnswerTerm]
            (text.drop (m + thoughtMarker.length)))
        | none => []
      (ParseResult.action tool tool_input
        (thoughtMarker ++ thought ++ ("\nAction: ").toList ++ tool ++
          ("\nAction Input: ").toList ++ tool_input), false)
    | _, _ =>
      (ParseResult.finish (pstrip text)
        (("Unparsed response treated as final answer: ").toList ++ pstrip text), true)

/-- Output carried by a finish result, none for an action. -/
def finishOutput : ParseResult → Option (List Char)
  | ParseResult.finish o _ => some o
  | ParseResult.action _ _ _ => none

/-- Tool named by an action result, none for a finish. -/
def actionTool : ParseResult → Option (List Char)
  | ParseResult.action t _ _ => some t
  | ParseResult.finish _ _ => none

/-- Tool input carried by an action result, none for a finish. -/
def actionToolInput : ParseResult → Option (List Char)
  | ParseResult.action _ i _ => some i
  | ParseResult.finish _ _ => none

/-- Specification-side reading of the final-answer extraction, written from the
words of the claim: the trimmed content following the first marker, up to a
fenced-block terminator or the end of the text. -/
def claimFinalAnswer (text : List Char) : List Char :=
  match firstOccur finalAnswerMarker text with
  | some i => pstrip (upTo [fenced] (text.drop (i + finalAnswerMarker.length)))
  | none => []

/-- Specification-side reading of the tool extraction: the trimmed text
following the first Action: marker up to the next Action Input: terminator or
the end of the text. -/
def claimTool (text : List Char) : List Char :=
  match firstOccur actionMarker text with
  | some j => pstrip (upTo [actionInputTerm] (text.drop (j + actionMarker.length)))
  | none => []

/-- Specification-side reading of the tool-input extraction: the trimmed text
following the first Action Input: marker up to an Observation: or Thought:
terminator or the end of the text. -/
def claimToolInput (text : List Char) : List Char :=
  match firstOccur actionInputMarker text with
  | some k => pstrip (upTo [observationTerm, thoughtTerm]
      (text.drop (k + actionInputMarker.length)))
  | none => []

/-- Single-quote character, used by source f-strings around patterns. -/
def sq : Char := Char.ofNat 39

/-- Session state of TerminalCrew: the tracked working directory, the real
process working directory mutated through os.chdir, and the command history.
Paths are resolved absolute paths, represented as component lists. -/
structure CrewState where
  workingDir : List (List Char)
  osCwd : List (List Char)
  history : List (List Char × List Char)
deriving DecidableEq

/-- Outcome of the fallible part of TerminalCrew.execute_command: either
subprocess.run completes with captured stdout, stderr and a return code, or
some step of the try block raises an exception with the given message. -/
inductive CmdOutcome where
  | runOk (stdout stderr : List Char) (returncode : Int)
  | raises (msg : List Char)

/-- Result of execute_command: the returned observation string, the updated
session state, and the console diagnostics printed along the way. -/
structure CmdResult where
  output : List Char
  state : CrewState
  console : List (List Char)
deriving DecidableEq

/-- Observation of a completed run: stdout, except that a non-zero exit
yields stdout, a newline and stderr, or just stderr when stdout is empty. -/
def runOutput (stdout stderr : List Char) (code : Int) : List Char :=
  if code = 0 then stdout
  else if stdout = [] then stderr else stdout ++ [('\n')] ++ stderr

/-- The history update of execute_command: pop the oldest entry when the
length exceeds 5. -/
def capHistory (h : List (List Char × List Char)) : List (List Char × List Char) :=
  if 5 < h.length then h.tail else h

/-- TerminalCrew.execute_command.  On a completed run the pair
(command, output) is appended to the history and the oldest entry is popped
when the length exceeds 5.  On an exception the ERROR: string is returned and
appended to the history; the source except branch performs no pop.  Console
prints preceding the point of failure in the exception case are not
tracked. -/
def execute_command (st : CrewState) (command : List Char) (outcome : CmdOutcome) :
    CmdResult :=
  match outcome with
  | CmdOutcome.runOk stdout stderr code =>
    let output := runOutput stdout stderr code
    let console := [("Executing command: ").toList ++ command] ++
      (if code = 0 then [] else
        [("Command failed with exit code ").toList ++ (toString code).toList])
    ⟨output, { st with history := capHistory (st.history ++ [(command, output)]) },
      console⟩
  | CmdOutcome.raises msg =>
    let output := ("ERROR: ").toList ++ msg
    ⟨output, { st with history := st.history ++ [(command, output)] },
      [("Error during command execution: ").toList ++ msg]⟩

/-- Outcome of Path.read_text(errors=replace) as used by read_file: the
decoded content, an undecodable-as-text failure, or any other OS error. -/
inductive ReadOutcome where
  | content (s : List Char)
  | undecodable
  | oserror (msg : List Char)

/-- Filesystem collaborator: which resolved paths exist, which of them are
directories (os.chdir is modelled as succeeding exactly on existing
directories), and what reading a path yields. -/
structure Fs where
  pathExists : List (List Char) → Bool
  pathIsDir : List (List Char) → Bool
  readText : List (List Char) → ReadOutcome

/-- Splits a character list on the slash separator. -/
def splitSlash : List Char → List (List Char)
  | [] => [[]]
  | c :: rest =>
    if c = '/' then [] :: splitSlash rest
    else
      match splitSlash rest with
      | [] => [[c]]
      | g :: gs => (c :: g) :: gs

/-- Path components of a textual path: split on slashes, dropping empty
components and single dots, as pathlib does on construction. -/
def pathComponents (s : List Char) : List (List Char) :=
  (splitSlash s).filter (fun c => !(c == [] || c == [('.')]))

/-- Whether a textual path is absolute. -/
def isAbsPath (s : List Char) : Bool :=
  match s with
  | c :: _ => c = '/'
  | [] => false

/-- One step of pathlib resolve(): a dot-dot component pops the last resolved
component (staying at the root when empty), anything else is appended. -/
def applyComp (acc : List (List Char)) (c : List Char) : List (List Char) :=
  if c = ("..").toList then acc.dropLast else acc ++ [c]

/-- Models (working_dir / path).resolve(): an absolute path replaces the
base, a relative one extends it, then dot-dot components are resolved.
Symbolic links are not modelled. -/
def resolveTarget (wd : List (List Char)) (path : List Char) : List (List Char) :=
  (pathComponents path).foldl applyComp (if isAbsPath path then [] else wd)

/-- Textual rendering of a resolved absolute path, as str(Path) produces. -/
def renderPath (p : List (List Char)) : List Char :=
  match p with
  | [] => [('/')]
  | _ => p.foldl (fun acc c => acc ++ [('/')] ++ c) []

/-- TerminalCrew.read_file: resolve against the working directory, report a
File not found string for missing paths, return the decoded content, the
binary-file message on a decode failure, and ERROR: on any other exception. -/
def read_file (fs : Fs) (st : CrewState) (file_path : List Char) : List Char :=
  let full := resolveTarget st.workingDir file_path
  if fs.pathExists full = false then ("File not found: ").toList ++ file_path
  else
    match fs.readText full with
    | ReadOutcome.content s => s
    | ReadOutcome.undecodable =>
      ("Unable to read ").toList ++ file_path ++
        (" as text. It may be a binary file.").toList
    | ReadOutcome.oserror msg => ("ERROR: ").toList ++ msg

/-- Shell command synthesized by TerminalCrew.find_files for a pattern. -/
def findCmd (pattern : List Char) : List Char :=
  ("find . -type f -name ").toList ++ [sq] ++ pattern ++ [sq] ++
    (" -o -path ").toList ++ [sq] ++ [('*')] ++ pattern ++ [('*')] ++ [sq] ++
    (" 2>/dev/null | sort").toList

/-- TerminalCrew.find_files: synthesizes a find command, runs it through
execute_command, and wraps the observation.  The outer try of the source is
unreachable here because execute_command never raises. -/
def find_files (st : CrewState) (pattern : List Char) (outcome : CmdOutcome) :
    List Char × CrewState :=
  let r := execute_command st (findCmd pattern) outcome
  if pstrip r.output = [] then
    (("No files matching ").toList ++ [sq] ++ pattern ++ [sq] ++
      (" found in ").toList ++ renderPath st.workingDir, r.state)
  else
    (("Files matching ").toList ++ [sq] ++ pattern ++ [sq] ++ (":\n").toList ++
      r.output, r.state)

/-- TerminalCrew.change_directory: resolve the target against the working
directory; when it exists, assign the session working directory, then
os.chdir.  The chdir call is modelled as succeeding exactly on existing
directories; when it raises (an existing non-directory target) the except
branch returns false, with the session working directory already reassigned. -/
def change_directory (fs : Fs) (st : CrewState) (path : List Char) :
    Bool × CrewState :=
  let newPath := resolveTarget st.workingDir path
  if fs.pathExists newPath then
    let st1 := { st with workingDir := newPath }
    if fs.pathIsDir newPath then (true, { st1 with osCwd := newPath })
    else (false, st1)
  else (false, st)

/-- Result of TerminalCrew.process_request: the updated session state, whether
the language model was consulted, and the console messages. -/
structure ReqResult where
  state : CrewState
  modelCalled : Bool
  console : List (List Char)

/-- TerminalCrew.process_request: input whose lowercase form begins with the
three characters cd-space is special-cased to change_directory and never
reaches the model; anything else is forwarded to the agent, abstracted here as
the runAgent collaborator. -/
def process_request (fs : Fs) (runAgent : CrewState → CrewState × List Char)
    (st : CrewState) (input : List Char) : ReqResult :=
  if leadsWith (("cd ").toList) (input.map Char.toLower) then
    let path := pstrip (input.drop 3)
    let (ok, st1) := change_directory fs st path
    if ok then
      ⟨st1, false, [("Changed directory to: ").toList ++ renderPath st1.workingDir]⟩
    else
      ⟨st1, false, [("Failed to change directory to: ").toList ++ path]⟩
  else
    let (st1, resp) := runAgent st
    ⟨st1, true, [resp]⟩

/-- Behaviour of one registered tool invocation inside TerminalAgent.process:
a Python None return, a string return, a dict return (its json.dumps indented
rendering carried as data), or a raised exception with a message. -/
inductive ToolOutcome where
  | retNone
  | retStr (s : List Char)
  | retJson (rendered : List Char)
  | raises (msg : List Char)

/-- Lookup in the tool mapping built from the tool list; the source dict keeps
the last binding of a duplicated name. -/
def lookupTool (tools : List (List Char × (List Char → ToolOutcome)))
    (name : List Char) : Option (List Char → ToolOutcome) :=
  match tools with
  | [] => none
  | (n, f) :: rest =>
    match lookupTool rest name with
    | some g => some g
    | none => if n = name then some f else none

/-- Observation computed for one parsed action, mirroring the dispatch block
of TerminalAgent.process: the fixed not-found default when the tool name is
absent from the mapping, then the None, dict and exception conversions. -/
def computeObservation (tools : List (List Char × (List Char → ToolOutcome)))
    (name input : List Char) : List Char :=
  match lookupTool tools name with
  | none => ("Tool execution failed: Tool not found").toList
  | some f =>
    match f input with
    | ToolOutcome.retNone => ("Tool executed successfully but returned no output.").toList
    | ToolOutcome.retStr s => s
    | ToolOutcome.retJson rendered => rendered
    | ToolOutcome.raises msg => ("Error executing tool: ").toList ++ msg

/-- Marker prepended to observations before they are sent back to the model. -/
def obsMarker : List Char := ("Observation: ").toList

/-- State after the while loop of TerminalAgent.process: the current parse
result with its is-done flag, the index of the next model exchange, the
accumulated agent steps, and the fuel remaining (zero exactly when the
iteration counter reached max_iterations). -/
structure LoopOut where
  st : ParseResult × Bool
  sendIdx : Nat
  steps : List (List Char)
  fuelLeft : Nat

/-- The while loop of TerminalAgent.process.  The model is abstracted as an
oracle giving the text of the reply to the k-th chat.send_message call; fuel
counts the iterations left before max_iterations.  Each iteration computes
the observation for the current action, appends the observation turn and the
next model reply to the steps, and reparses; a finish result (the defensive
break of the source) or is_done ends the loop. -/
def reactLoop (tools : List (List Char × (List Char → ToolOutcome)))
    (oracle : Nat → List Char) :
    Nat → Nat → ParseResult × Bool → List (List Char) → LoopOut
  | 0, sendIdx, st, steps => ⟨st, sendIdx, steps, 0⟩
  | fuel + 1, sendIdx, st, steps =>
    if st.2 = true then ⟨st, sendIdx, steps, fuel + 1⟩
    else
      match st.1 with
      | ParseResult.action tool input _ =>
        let obs := computeObservation tools tool input
        let resp := oracle sendIdx
        reactLoop tools oracle fuel (sendIdx + 1) (parse_agent_response resp)
          (steps ++ [obsMarker ++ obs, resp])
      | ParseResult.finish _ _ => ⟨st, sendIdx, steps, fuel + 1⟩

/-- Iteration bound of the source loop. -/
def max_iterations : Nat := 10

/-- Final directive sent when the loop exhausts its iterations undone. -/
def final_prompt_text : List Char :=
  ("You").toList ++ [sq] ++
    ("ve taken several steps but need to conclude now. Please provide your Final Answer based on what you").toList ++
    [sq] ++ ("ve learned so far.").toList

/-- Result of TerminalAgent.process: the final response text, the agent
steps, the filtered execute_command steps, and the number of model exchanges
performed (a bookkeeping count of chat.send_message calls). -/
structure ProcResult where
  response_text : List Char
  agent_steps : List (List Char)
  commands_executed : List (List Char)
  modelCalls : Nat

/-- TerminalAgent.process.  The initial exchange produces the first response
(oracle 0); the while loop consumes subsequent replies; when the loop used all
its iterations while still undone, one forced-conclusion exchange is sent and
a finish is synthesized from the stripped reply when it still parses to an
action.  Prompt construction is orthogonal to the oracle abstraction, and the
conversation bookkeeping list, which the source never returns, is omitted. -/
def process (tools : List (List Char × (List Char → ToolOutcome)))
    (oracle : Nat → List Char) : ProcResult :=
  let r0 := oracle 0
  let st0 := parse_agent_response r0
  let lo := reactLoop tools oracle max_iterations 1 st0 [r0]
  let fin :
      (ParseResult × Bool) × List (List Char) × Nat :=
    if lo.fuelLeft = 0 && lo.st.2 = false then
      let resp := oracle lo.sendIdx
      let st2 := parse_agent_response resp
      let steps2 := lo.steps ++ [final_prompt_text, resp]
      if st2.2 = true then (st2, steps2, lo.sendIdx + 1)
      else
        ((ParseResult.finish (pstrip resp)
            (("Forced final answer: ").toList ++ pstrip resp), true),
          steps2, lo.sendIdx + 1)
    else (lo.st, lo.steps, lo.sendIdx)
  let out :=
    match fin.1.1 with
    | ParseResult.finish o _ => o
    | ParseResult.action _ _ _ => ("Agent did not complete with a final answer.").toList
  ⟨out, fin.2.1,
    fin.2.1.filter (fun s => hasSub (("Action: execute_command").toList) s),
    fin.2.2⟩

/-- Stripping is unaffected by a trailing newline. -/
theorem rstrip_append_newline (x : List Char) : rstrip (x ++ [('\n')]) = rstrip x := by
  have h : pyWs '\n' = true := by decide
  simp [rstrip, List.dropWhile_cons, h]

/-- Stripping is unaffected by a trailing newline. -/
theorem pstrip_append_newline (x : List Char) : pstrip (x ++ [('\n')]) = pstrip x := by
  simp [pstrip, rstrip_append_newline]

/-- The specification-side capture equals the lazy regex capture, possibly
extended by the final trailing newline that the dollar anchor excludes. -/
theorem upTo_captureLazy (terms : List (List Char)) :
    ∀ t, upTo terms t = captureLazy terms t ∨
      upTo terms t = captureLazy terms t ++ [('\n')] := by
  intro t
  induction t with
  | nil => left; rfl
  | cons c rest ih =>
    by_cases hany : (terms.any (fun tm => leadsWith tm (c :: rest))) = true
    · left; simp [upTo, captureLazy, hany]
    · rcases Decidable.em (rest = []) with hrest | hrest
      · subst hrest
        rcases Decidable.em (c = '\n') with hc | hc
        · subst hc; right; simp [upTo, captureLazy, hany]
        · left; simp [upTo, captureLazy, hany, hc]
      · have hguard : (rest = [] && c = '\n') = false := by
          simp [hrest]
        rcases ih with h | h
        · left; simp [upTo, captureLazy, hany, hguard, h]
        · right; simp [upTo, captureLazy, hany, hguard, h]

/-- After stripping, the lazy regex capture and the specification-side capture
agree. -/
theorem pstrip_captureLazy_eq_upTo (terms : List (List Char)) (t : List Char) :
    pstrip (captureLazy terms t) = pstrip (upTo terms t) := by
  rcases upTo_captureLazy terms t with h | h
  · rw [h]
  · rw [h, pstrip_append_newline]

/-- Prefix tests compose. -/
theorem leadsWith_trans :
    ∀ {a b c : List Char}, leadsWith a b = true → leadsWith b c = true →
      leadsWith a c = true
  | [], _, _, _, _ => rfl
  | _ :: _, [], _, h1, _ => by simp [leadsWith] at h1
  | _ :: _, _ :: _, [], _, h2 => by simp [leadsWith] at h2
  | a :: as, b :: bs, c :: cs, h1, h2 => by
    simp only [leadsWith, Bool.and_eq_true, decide_eq_true_eq] at h1 h2 ⊢
    exact ⟨h1.1.trans h2.1, leadsWith_trans h1.2 h2.2⟩

/-- Every list is a prefix of itself. -/
theorem leadsWith_refl : ∀ n : List Char, leadsWith n n = true
  | [] => rfl
  | a :: as => by
    simp only [leadsWith, Bool.and_eq_true, decide_eq_true_eq]
    exact ⟨by simp, leadsWith_refl as⟩

/-- A prefix test survives extending the tested list on the right. -/
theorem leadsWith_append_right :
    ∀ {n t : List Char} (y : List Char), leadsWith n t = true →
      leadsWith n (t ++ y) = true
  | [], _, _, _ => rfl
  | _ :: _, [], _, h => by simp [leadsWith] at h
  | n :: ns, t :: ts, y, h => by
    simp only [leadsWith, Bool.and_eq_true, decide_eq_true_eq] at h ⊢
    exact ⟨h.1, leadsWith_append_right y h.2⟩

/-- Unfolding of the substring test on the empty list. -/
theorem hasSub_nil (n : List Char) : hasSub n [] = leadsWith n [] := by
  cases h : leadsWith n ([] : List Char) with
  | true => simp [hasSub, firstOccur, h]
  | false => simp [hasSub, firstOccur, h]

/-- Unfolding of the substring test on a cons. -/
theorem hasSub_cons (n : List Char) (c : Char) (rest : List Char) :
    hasSub n (c :: rest) = (leadsWith n (c :: rest) || hasSub n rest) := by
  cases h : leadsWith n (c :: rest) with
  | true => simp [hasSub, firstOccur, h]
  | false => simp [hasSub, firstOccur, h]

/-- Occurrence of a needle implies occurrence of any of its prefixes. -/
theorem hasSub_mono {n1 n2 : List Char} (hpre : leadsWith n1 n2 = true) :
    ∀ t, hasSub n2 t = true → hasSub n1 t = true := by
  intro t
  induction t with
  | nil =>
    intro h
    rw [hasSub_nil] at h ⊢
    exact leadsWith_trans hpre h
  | cons c rest ih =>
    intro h
    rw [hasSub_cons] at h ⊢
    simp only [Bool.or_eq_true] at h ⊢
    rcases h with h | h
    · exact Or.inl (leadsWith_trans hpre h)
    · exact Or.inr (ih h)

/-- A needle occurs in any list that ends with it. -/
theorem hasSub_append_self : ∀ (x n : List Char), hasSub n (x ++ n) = true := by
  intro x n
  induction x with
  | nil =>
    rw [List.nil_append]
    cases n with
    | nil => rfl
    | cons a as =>
      rw [hasSub_cons]
      simp [leadsWith_refl]
  | cons c x ih =>
    rw [List.cons_append, hasSub_cons]
    simp [ih]

/-- An occurrence survives extending the list on the right. -/
theorem hasSub_append_left {n x : List Char} (y : List Char)
    (h : hasSub n x = true) : hasSub n (x ++ y) = true := by
  induction x with
  | nil =>
    rw [hasSub_nil] at h
    have hn : n = [] := by
      cases n with
      | nil => rfl
      | cons a as => simp [leadsWith] at h
    subst hn
    cases y with
    | nil => rfl
    | cons b bs =>
      rw [List.nil_append, hasSub_cons]
      simp [leadsWith]
  | cons c x ih =>
    rw [hasSub_cons] at h
    rw [List.cons_append, hasSub_cons]
    simp only [Bool.or_eq_true] at h ⊢
    rcases h with h | h
    · exact Or.inl (leadsWith_append_right y h)
    · exact Or.inr (ih h)

/-- Absence of a needle gives absence of every extension of that needle. -/
theorem firstOccur_none_of_not_sub {n1 n2 t : List Char}
    (hpre : leadsWith n1 n2 = true) (h : hasSub n1 t = false) :
    firstOccur n2 t = none := by
  rcases hOcc : firstOccur n2 t with _ | i
  · rfl
  · have h2 : hasSub n2 t = true := by simp [hasSub, hOcc]
    have h1 := hasSub_mono hpre t h2
    rw [h] at h1
    exact absurd h1 (by simp)

/-- Parsing always yields exactly one of the two result shapes, with the
is-done flag matching the constructor. -/
theorem parse_shape (text : List Char) :
    ((parse_agent_response text).2 = true ∧
      ∃ o l, (parse_agent_response text).1 = ParseResult.finish o l) ∨
    ((parse_agent_response text).2 = false ∧
      ∃ t i l, (parse_agent_response text).1 = ParseResult.action t i l) := by
  unfold parse_agent_response
  split
  · exact Or.inl ⟨rfl, _, _, rfl⟩
  · split
    · exact Or.inr ⟨rfl, _, _, _, rfl⟩
    · exact Or.inl ⟨rfl, _, _, rfl⟩

/-- A parse reporting not-done is an action. -/
theorem parse_not_done_action {text : List Char}
    (h : (parse_agent_response text).2 = false) :
    ∃ t i l, (parse_agent_response text).1 = ParseResult.action t i l := by
  rcases parse_shape text with ⟨h1, _⟩ | ⟨_, h2⟩
  · rw [h] at h1
    exact absurd h1 (by simp)
  · exact h2

/-- C1 counterexample: the text Final Answer:42 contains the claimed marker
Final Answer: yet the colon is not followed by a space, so the final-answer
regex does not match and the parser falls back to a finish whose output is the
whole trimmed text, not the content following the marker. -/
theorem c1_counterexample :
    hasSub (("Final Answer:").toList) (("Final Answer:42").toList) = true ∧
    finishOutput (parse_agent_response (("Final Answer:42").toList)).1 ≠
      some (("42").toList) := by
  constructor
  · decide
  · decide

/-- C1 (amended): for every response containing the marker Final Answer
followed by a colon and a space, the parser returns a Finish, and its output
is the trimmed content following the first such marker up to a fenced-block
terminator or the end of the text, regardless of any Action markers. -/
theorem c1_final_answer_priority (text : List Char)
    (h : hasSub finalAnswerMarker text = true) :
    (parse_agent_response text).2 = true ∧
    finishOutput (parse_agent_response text).1 = some (claimFinalAnswer text) := by
  obtain ⟨i, hi⟩ := Option.isSome_iff_exists.mp h
  unfold parse_agent_response claimFinalAnswer
  rw [hi]
  exact ⟨rfl, by simp [finishOutput, pstrip_captureLazy_eq_upTo]⟩

/-- C1 witness: a response containing both Action markers and a Final Answer
marker parses to a Finish carrying the content after the marker. -/
theorem c1_witness :
    ((parse_agent_response
        (("Action: x\nAction Input: y\nFinal Answer: done```junk").toList)).2 = true ∧
      finishOutput (parse_agent_response
        (("Action: x\nAction Input: y\nFinal Answer: done```junk").toList)).1 =
        some (claimFinalAnswer
          (("Action: x\nAction Input: y\nFinal Answer: done```junk").toList))) ∧
    claimFinalAnswer (("Action: x\nAction Input: y\nFinal Answer: done```junk").toList) =
      ("done").toList := by
  constructor
  · exact c1_final_answer_priority _ (by decide)
  · decide

/-- C5: parsing any text yields exactly one of action and finish, with the
is-done flag tied to the constructor; and when none of the three markers
occurs in the text the result is a finish whose output is the whole input
stripped of surrounding whitespace. -/
theorem c5_parse_exclusive_fallback (text : List Char) :
    (((parse_agent_response text).2 = true ∧
        ∃ o l, (parse_agent_response text).1 = ParseResult.finish o l) ∨
      ((parse_agent_response text).2 = false ∧
        ∃ t i l, (parse_agent_response text).1 = ParseResult.action t i l)) ∧
    (hasSub finalAnswerTerm text = false → hasSub actionTerm text = false →
      hasSub actionInputTerm text = false →
      (parse_agent_response text).2 = true ∧
      finishOutput (parse_agent_response text).1 = some (pstrip text)) := by
  refine ⟨parse_shape text, fun hFA hA hAI => ?_⟩
  have h1 : firstOccur finalAnswerMarker text = none :=
    firstOccur_none_of_not_sub (by decide) hFA
  have h2 : firstOccur actionMarker text = none :=
    firstOccur_none_of_not_sub (by decide) hA
  have h3 : firstOccur actionInputMarker text = none :=
    firstOccur_none_of_not_sub (by decide) hAI
  unfold parse_agent_response
  rw [h1, h2, h3]
  exact ⟨rfl, rfl⟩

/-- C5 witness: a marker-free response parses to a finish carrying the whole
trimmed text. -/
theorem c5_witness :
    (parse_agent_response (("  hello world\n").toList)).2 = true ∧
    finishOutput (parse_agent_response (("  hello world\n").toList)).1 =
      some (("hello world").toList) := by
  have h := (c5_parse_exclusive_fallback (("  hello world\n").toList)).2
    (by decide) (by decide) (by decide)
  refine ⟨h.1, ?_⟩
  rw [h.2]
  decide

/-- C6 counterexample: the text contains the claimed markers Action: and
Action Input: (and no Final Answer:), but without a space after the colons
the regexes fail and the parser returns a fallback Finish, not an Action. -/
theorem c6_counterexample :
    (hasSub (("Action:").toList) (("Action:x\nAction Input:y").toList) = true ∧
      hasSub (("Action Input:").toList) (("Action:x\nAction Input:y").toList) = true ∧
      hasSub (("Final Answer:").toList) (("Action:x\nAction Input:y").toList) = false) ∧
    actionTool (parse_agent_response (("Action:x\nAction Input:y").toList)).1 = none ∧
    (parse_agent_response (("Action:x\nAction Input:y").toList)).2 = true := by
  refine ⟨⟨?_, ?_, ?_⟩, ?_, ?_⟩ <;> decide

/-- C6 (amended): for text containing the markers Action and Action Input,
each followed by a colon and a space, and no Final Answer: marker, the parser
returns an Action whose tool is the trimmed text after the first Action:
marker up to the next Action Input: terminator or end of text, and whose
tool input is the trimmed text after the first Action Input: marker up to an
Observation: or Thought: terminator or end of text. -/
theorem c6_action_extraction (text : List Char)
    (h1 : hasSub actionMarker text = true)
    (h2 : hasSub actionInputMarker text = true)
    (h3 : hasSub finalAnswerTerm text = false) :
    (parse_agent_response text).2 = false ∧
    actionTool (parse_agent_response text).1 = some (claimTool text) ∧
    actionToolInput (parse_agent_response text).1 = some (claimToolInput text) := by
  have hFA : firstOccur finalAnswerMarker text = none :=
    firstOccur_none_of_not_sub (by decide) h3
  obtain ⟨j, hj⟩ := Option.isSome_iff_exists.mp h1
  obtain ⟨k, hk⟩ := Option.isSome_iff_exists.mp h2
  unfold parse_agent_response claimTool claimToolInput
  rw [hFA, hj, hk]
  refine ⟨rfl, ?_, ?_⟩
  · simp [actionTool, pstrip_captureLazy_eq_upTo]
  · simp [actionToolInput, pstrip_captureLazy_eq_upTo]

/-- C6 witness: a well-formed ReAct step parses to an Action with the trimmed
tool name and tool input. -/
theorem c6_witness :
    ((parse_agent_response
        (("Thought: need files\nAction: execute_command\nAction Input: ls -la\n").toList)).2 = false ∧
      actionTool (parse_agent_response
        (("Thought: need files\nAction: execute_command\nAction Input: ls -la\n").toList)).1 =
        some (claimTool
          (("Thought: need files\nAction: execute_command\nAction Input: ls -la\n").toList)) ∧
      actionToolInput (parse_agent_response
        (("Thought: need files\nAction: execute_command\nAction Input: ls -la\n").toList)).1 =
        some (claimToolInput
          (("Thought: need files\nAction: execute_command\nAction Input: ls -la\n").toList))) ∧
    claimTool (("Thought: need files\nAction: execute_command\nAction Input: ls -la\n").toList) =
      ("execute_command").toList ∧
    claimToolInput (("Thought: need files\nAction: execute_command\nAction Input: ls -la\n").toList) =
      ("ls -la").toList := by
  refine ⟨c6_action_extraction _ (by decide) (by decide) (by decide), ?_, ?_⟩
  · decide
  · decide

/-- When every model reply parses to an action, the loop consumes one oracle
reply per unit of fuel and ends with no fuel left, holding the parse of the
last consumed reply. -/
theorem reactLoop_saturated (tools : List (List Char × (List Char → ToolOutcome)))
    (oracle : Nat → List Char)
    (hor : ∀ k, (parse_agent_response (oracle k)).2 = false) :
    ∀ (fuel sendIdx : Nat) (r : List Char) (steps : List (List Char)),
      (parse_agent_response r).2 = false →
      ∃ steps2,
        reactLoop tools oracle (fuel + 1) sendIdx (parse_agent_response r) steps =
          ⟨parse_agent_response (oracle (sendIdx + fuel)), sendIdx + fuel + 1, steps2, 0⟩ := by
  intro fuel
  induction fuel with
  | zero =>
    intro sendIdx r steps hr
    obtain ⟨t, i, l, heq⟩ := parse_not_done_action hr
    refine ⟨steps ++ [obsMarker ++ computeObservation tools t i, oracle sendIdx], ?_⟩
    show reactLoop tools oracle (0 + 1) sendIdx (parse_agent_response r) steps = _
    unfold reactLoop
    rw [hr, heq]
    simp [reactLoop]
  | succ f ih =>
    intro sendIdx r steps hr
    obtain ⟨t, i, l, heq⟩ := parse_not_done_action hr
    obtain ⟨steps2, h2⟩ := ih (sendIdx + 1) (oracle sendIdx)
      (steps ++ [obsMarker ++ computeObservation tools t i, oracle sendIdx]) (hor sendIdx)
    refine ⟨steps2, ?_⟩
    show reactLoop tools oracle (f + 1 + 1) sendIdx (parse_agent_response r) steps = _
    unfold reactLoop
    rw [hr, heq]
    have harith : sendIdx + 1 + f = sendIdx + (f + 1) := by omega
    rw [harith] at h2
    simp [h2]

/-- C2 (amended): when the first response and every later reply parse to an
action, process performs exactly ten loop exchanges after the initial one,
then the single forced-conclusion exchange, and returns the trimmed text of
the forced reply as the final answer. -/
theorem c2_forced_termination (tools : List (List Char × (List Char → ToolOutcome)))
    (oracle : Nat → List Char)
    (hor : ∀ k, (parse_agent_response (oracle k)).2 = false) :
    (process tools oracle).modelCalls = 12 ∧
    (process tools oracle).response_text = pstrip (oracle 11) := by
  obtain ⟨steps2, h⟩ :=
    reactLoop_saturated tools oracle hor 9 1 (oracle 0) [oracle 0] (hor 0)
  have h10 : reactLoop tools oracle max_iterations 1
      (parse_agent_response (oracle 0)) [oracle 0] =
      ⟨parse_agent_response (oracle 10), 11, steps2, 0⟩ := h
  simp only [process]
  rw [h10]
  simp [hor 10, hor 11]

/-- Oracle reply used in the C2 concrete scenarios: an action with trailing
whitespace, so the stripped forced answer differs from the raw reply. -/
def c2Reply : List Char := ("Action: shell\nAction Input: ls\n").toList

/-- Constant oracle whose every reply is an action. -/
def c2Oracle : Nat → List Char := fun _ => c2Reply

/-- C2 counterexample: with every reply an action carrying trailing
whitespace, the final answer synthesized after the forced exchange is the
stripped reply, not the raw reply text verbatim. -/
theorem c2_counterexample :
    (∀ k, (parse_agent_response (c2Oracle k)).2 = false) ∧
    (process [] c2Oracle).response_text ≠ c2Oracle 11 := by
  constructor
  · intro k
    exact (by decide : (parse_agent_response c2Reply).2 = false)
  · decide

/-- C2 witness: the forced-termination exchange count and answer on the
constant action oracle. -/
theorem c2_witness :
    (process [] c2Oracle).modelCalls = 12 ∧
    (process [] c2Oracle).response_text = pstrip (c2Oracle 11) :=
  c2_forced_termination [] c2Oracle
    (fun _ => (by decide : (parse_agent_response c2Reply).2 = false))

/-- C8: an action naming an unregistered tool produces the fixed not-found
observation, a registered tool that raises produces the error-message
observation, and in each case the loop simply appends the observation turn
and goes on with the next reply, never propagating the failure. -/
theorem c8_tool_failure_absorbed (tools : List (List Char × (List Char → ToolOutcome)))
    (name input : List Char) :
    (lookupTool tools name = none →
      computeObservation tools name input =
        ("Tool execution failed: Tool not found").toList) ∧
    (∀ f msg, lookupTool tools name = some f → f input = ToolOutcome.raises msg →
      computeObservation tools name input =
        ("Error executing tool: ").toList ++ msg) ∧
    (∀ (oracle : Nat → List Char) (fuel sendIdx : Nat) (lg : List Char)
        (steps : List (List Char)),
      reactLoop tools oracle (fuel + 1) sendIdx
          (ParseResult.action name input lg, false) steps =
        reactLoop tools oracle fuel (sendIdx + 1)
          (parse_agent_response (oracle sendIdx))
          (steps ++ [obsMarker ++ computeObservation tools name input,
            oracle sendIdx])) := by
  refine ⟨fun h => ?_, fun f msg hf hr => ?_, fun oracle fuel sendIdx lg steps => rfl⟩
  · simp only [computeObservation, h]
  · simp only [computeObservation, hf, hr]

/-- Tool list used by the C8 witness: one tool that always raises. -/
def c8Tools : List (List Char × (List Char → ToolOutcome)) :=
  [(("boomtool").toList, fun _ => ToolOutcome.raises (("kaput").toList))]

/-- C8 witness: concrete not-found and raising-tool observations. -/
theorem c8_witness :
    computeObservation [] (("nosuch").toList) (("x").toList) =
      ("Tool execution failed: Tool not found").toList ∧
    computeObservation c8Tools (("boomtool").toList) (("x").toList) =
      ("Error executing tool: kaput").toList := by
  constructor
  · exact (c8_tool_failure_absorbed [] (("nosuch").toList) (("x").toList)).1 rfl
  · have h := (c8_tool_failure_absorbed c8Tools (("boomtool").toList)
      (("x").toList)).2.1 (fun _ => ToolOutcome.raises (("kaput").toList))
      (("kaput").toList) rfl rfl
    rw [h]
    decide

/-- Command history of five entries, used by the concrete crew scenarios. -/
def hist5 : List (List Char × List Char) :=
  [(("c1").toList, ("o1").toList), (("c2").toList, ("o2").toList),
    (("c3").toList, ("o3").toList), (("c4").toList, ("o4").toList),
    (("c5").toList, ("o5").toList)]

/-- Session state with a full five-entry history. -/
def st5 : CrewState := ⟨[("home").toList], [("home").toList], hist5⟩

/-- C3: on the completed-run path a sixth insertion evicts the oldest entry
(FIFO) and the length stays five, but on the exception path the except branch
appends without the cap and the history grows to six entries. -/
theorem c3_history_cap_violation :
    ((execute_command st5 (("c6").toList)
        (CmdOutcome.runOk (("o6").toList) [] 0)).state.history =
      hist5.tail ++ [(("c6").toList, ("o6").toList)] ∧
      (execute_command st5 (("c6").toList)
        (CmdOutcome.runOk (("o6").toList) [] 0)).state.history.length = 5) ∧
    (execute_command st5 (("c6").toList)
      (CmdOutcome.raises (("boom").toList))).state.history.length = 6 := by
  refine ⟨⟨?_, ?_⟩, ?_⟩ <;> decide

/-- C7 counterexample: on a non-zero exit with nonempty stdout the returned
observation inserts a newline between stdout and stderr, so it differs from
the plain concatenation of stdout followed by stderr. -/
theorem c7_counterexample :
    (execute_command st5 (("c").toList)
      (CmdOutcome.runOk (("a").toList) (("b").toList) 1)).output ≠
      ("a").toList ++ ("b").toList := by
  decide

/-- C7 (amended): execute_command always returns a string in-band; on a
non-zero exit the observation is stdout, a newline, then stderr (just stderr
when stdout is empty), the failure being signalled only by the printed
diagnostic; on an exception the returned value is still a plain ERROR:
string. -/
theorem c7_nonzero_exit_output (st : CrewState) (cmd stdout stderr : List Char)
    (code : Int) (h : code ≠ 0) :
    (execute_command st cmd (CmdOutcome.runOk stdout stderr code)).output =
      (if stdout = [] then stderr else stdout ++ [('\n')] ++ stderr) ∧
    (("Command failed with exit code ").toList ++ (toString code).toList) ∈
      (execute_command st cmd (CmdOutcome.runOk stdout stderr code)).console ∧
    (∀ msg, (execute_command st cmd (CmdOutcome.raises msg)).output =
      ("ERROR: ").toList ++ msg) := by
  refine ⟨?_, ?_, fun msg => rfl⟩
  · simp [execute_command, runOutput, h]
  · simp [execute_command, h]

/-- C7 witness: concrete non-zero exit producing the newline-joined
observation. -/
theorem c7_witness :
    ((execute_command st5 (("c").toList)
        (CmdOutcome.runOk (("a").toList) (("b").toList) 1)).output =
      (if (("a").toList : List Char) = [] then ("b").toList
        else ("a").toList ++ [('\n')] ++ ("b").toList) ∧
      (("Command failed with exit code ").toList ++ (toString (1 : Int)).toList) ∈
        (execute_command st5 (("c").toList)
          (CmdOutcome.runOk (("a").toList) (("b").toList) 1)).console ∧
      (∀ msg, (execute_command st5 (("c").toList) (CmdOutcome.raises msg)).output =
        ("ERROR: ").toList ++ msg)) ∧
    (execute_command st5 (("c").toList)
      (CmdOutcome.runOk (("a").toList) (("b").toList) 1)).output = ("a\nb").toList := by
  refine ⟨c7_nonzero_exit_output st5 (("c").toList) (("a").toList) (("b").toList) 1
    (by decide), ?_⟩
  decide

/-- C9: for a path whose resolution does not exist, read_file returns the
File not found string, which contains both the literal not found and the
requested path; and an OS error while reading an existing path still comes
back as an in-band ERROR: string, never as a propagated exception. -/
theorem c9_read_file_not_found (fs : Fs) (st : CrewState) (p : List Char)
    (h : fs.pathExists (resolveTarget st.workingDir p) = false) :
    read_file fs st p = ("File not found: ").toList ++ p ∧
    hasSub (("not found").toList) (read_file fs st p) = true ∧
    hasSub p (read_file fs st p) = true ∧
    (∀ q msg, fs.pathExists (resolveTarget st.workingDir q) = true →
      fs.readText (resolveTarget st.workingDir q) = ReadOutcome.oserror msg →
      read_file fs st q = ("ERROR: ").toList ++ msg) := by
  have hmain : read_file fs st p = ("File not found: ").toList ++ p := by
    simp [read_file, h]
  refine ⟨hmain, ?_, ?_, fun q msg hex hq => ?_⟩
  · rw [hmain]
    exact hasSub_append_left _ (by decide)
  · rw [hmain]
    exact hasSub_append_self _ _
  · simp [read_file, hex, hq]

/-- Filesystem with no existing paths, used by the C9 witness. -/
def fsMissing : Fs :=
  ⟨fun _ => false, fun _ => false, fun _ => ReadOutcome.oserror (("eio").toList)⟩

/-- C9 witness: a concrete missing path yields the File not found string. -/
theorem c9_witness :
    (read_file fsMissing st5 (("notes.txt").toList) =
        ("File not found: ").toList ++ ("notes.txt").toList ∧
      hasSub (("not found").toList) (read_file fsMissing st5 (("notes.txt").toList)) = true ∧
      hasSub (("notes.txt").toList) (read_file fsMissing st5 (("notes.txt").toList)) = true ∧
      (∀ q msg, fsMissing.pathExists (resolveTarget st5.workingDir q) = true →
        fsMissing.readText (resolveTarget st5.workingDir q) = ReadOutcome.oserror msg →
        read_file fsMissing st5 q = ("ERROR: ").toList ++ msg)) ∧
    read_file fsMissing st5 (("notes.txt").toList) =
      ("File not found: notes.txt").toList := by
  refine ⟨c9_read_file_not_found fsMissing st5 (("notes.txt").toList) (by decide), ?_⟩
  decide

/-- The capped history update keeps the appended entry last. -/
theorem getLast_capHistory (h : List (List Char × List Char))
    (x : List Char × List Char) :
    (capHistory (h ++ [x])).getLast? = some x := by
  unfold capHistory
  rcases Decidable.em (5 < (h ++ [x]).length) with hc | hc
  · rw [if_pos hc]
    cases h with
    | nil => simp at hc
    | cons a t => simp [List.getLast?_concat]
  · rw [if_neg hc]
    simp [List.getLast?_concat]

/-- The capped history update preserves the five-entry bound. -/
theorem length_capHistory_le (h : List (List Char × List Char))
    (x : List Char × List Char) (hlen : h.length ≤ 5) :
    (capHistory (h ++ [x])).length ≤ 5 := by
  unfold capHistory
  rcases Decidable.em (5 < (h ++ [x]).length) with hc | hc
  · rw [if_pos hc]
    simp
    omega
  · rw [if_neg hc]
    simp at hc ⊢
    omega

/-- The history left by execute_command always ends with the pair of the
executed command and the returned observation. -/
theorem execute_command_appends (st : CrewState) (cmd : List Char)
    (outcome : CmdOutcome) :
    (execute_command st cmd outcome).state.history.getLast? =
      some (cmd, (execute_command st cmd outcome).output) := by
  cases outcome with
  | runOk out err code =>
    exact getLast_capHistory st.history (cmd, runOutput out err code)
  | raises msg =>
    simp [execute_command, List.getLast?_concat]

/-- C10: find_files is routed through execute_command on the synthesized find
command: the history it leaves is exactly the history execute_command leaves
for that command, whose last entry pairs the find command with the
observation; on the completed-run path the entry stays subject to the
five-entry cap. -/
theorem c10_find_files_history (st : CrewState) (pattern : List Char)
    (outcome : CmdOutcome) :
    (find_files st pattern outcome).2.history =
      (execute_command st (findCmd pattern) outcome).state.history ∧
    (find_files st pattern outcome).2.history.getLast? =
      some (findCmd pattern, (execute_command st (findCmd pattern) outcome).output) ∧
    (∀ out err code, outcome = CmdOutcome.runOk out err code →
      st.history.length ≤ 5 →
      (find_files st pattern outcome).2.history.length ≤ 5) := by
  have hstate : (find_files st pattern outcome).2 =
      (execute_command st (findCmd pattern) outcome).state := by
    simp only [find_files]
    split <;> rfl
  refine ⟨by rw [hstate], ?_, fun out err code heq hlen => ?_⟩
  · rw [hstate]
    exact execute_command_appends st (findCmd pattern) outcome
  · rw [hstate, heq]
    exact length_capHistory_le st.history
      (findCmd pattern, runOutput out err code) hlen

/-- C10 witness: a concrete find_files call leaves the find command as the
last history entry and keeps the cap. -/
theorem c10_witness :
    (find_files st5 (("x").toList)
        (CmdOutcome.runOk (("f1").toList) [] 0)).2.history.getLast? =
      some (findCmd (("x").toList),
        (execute_command st5 (findCmd (("x").toList))
          (CmdOutcome.runOk (("f1").toList) [] 0)).output) ∧
    (find_files st5 (("x").toList)
      (CmdOutcome.runOk (("f1").toList) [] 0)).2.history.length ≤ 5 := by
  have h := c10_find_files_history st5 (("x").toList)
    (CmdOutcome.runOk (("f1").toList) [] 0)
  exact ⟨h.2.1, h.2.2 _ _ _ rfl (by decide)⟩

/-- Lowercasing preserves the leading cd-space prefix. -/
theorem cd_lower_of_leadsWith {input : List Char}
    (h : leadsWith (("cd ").toList) input = true) :
    leadsWith (("cd ").toList) (input.map Char.toLower) = true := by
  have hlit : ("cd ").toList = ['c', 'd', ' '] := rfl
  rw [hlit] at h ⊢
  cases input with
  | nil => simp [leadsWith] at h
  | cons c0 r0 =>
    cases r0 with
    | nil => simp [leadsWith] at h
    | cons c1 r1 =>
      cases r1 with
      | nil => simp [leadsWith] at h
      | cons c2 rest =>
        simp only [leadsWith, Bool.and_eq_true, decide_eq_true_eq] at h
        obtain ⟨h0, h1, h2, -⟩ := h
        subst h0; subst h1; subst h2
        simp only [List.map_cons, leadsWith, Bool.and_eq_true, decide_eq_true_eq]
        refine ⟨by decide, by decide, by decide, ?_⟩
        trivial

/-- C4 (amended): input beginning with cd-space bypasses the model; when the
resolved target exists and is a directory, both the session working directory
and the process working directory are updated to it; when the target does not
exist, the state is unchanged and the failure is reported. -/
theorem c4_cd_bypasses_model (fs : Fs)
    (runAgent : CrewState → CrewState × List Char) (st : CrewState)
    (input : List Char) (h : leadsWith (("cd ").toList) input = true) :
    (process_request fs runAgent st input).modelCalled = false ∧
    (fs.pathExists (resolveTarget st.workingDir (pstrip (input.drop 3))) = true →
      fs.pathIsDir (resolveTarget st.workingDir (pstrip (input.drop 3))) = true →
      (process_request fs runAgent st input).state.workingDir =
        resolveTarget st.workingDir (pstrip (input.drop 3)) ∧
      (process_request fs runAgent st input).state.osCwd =
        resolveTarget st.workingDir (pstrip (input.drop 3))) ∧
    (fs.pathExists (resolveTarget st.workingDir (pstrip (input.drop 3))) = false →
      (process_request fs runAgent st input).state = st ∧
      (process_request fs runAgent st input).console =
        [("Failed to change directory to: ").toList ++ pstrip (input.drop 3)]) := by
  have hlow : leadsWith ['c', 'd', ' '] (input.map Char.toLower) = true :=
    cd_lower_of_leadsWith h
  refine ⟨?_, fun hex hdir => ?_, fun hnex => ?_⟩
  · rcases hcd : change_directory fs st (pstrip (input.drop 3)) with ⟨ok, st1⟩
    cases ok <;> simp [process_request, hlow, hcd]
  · have hcd : change_directory fs st (pstrip (input.drop 3)) =
        (true, { st with
          workingDir := resolveTarget st.workingDir (pstrip (input.drop 3)),
          osCwd := resolveTarget st.workingDir (pstrip (input.drop 3)) }) := by
      simp [change_directory, hex, hdir]
    simp [process_request, hlow, hcd]
  · have hcd : change_directory fs st (pstrip (input.drop 3)) = (false, st) := by
      simp [change_directory, hnex]
    simp [process_request, hlow, hcd]

/-- Resolved target of the C4 counterexample: an existing regular file. -/
def c4Target : List (List Char) := [("home").toList, ("f").toList]

/-- Filesystem where the target exists but is not a directory. -/
def c4Fs : Fs :=
  ⟨fun p => decide (p = c4Target), fun _ => false, fun _ => ReadOutcome.undecodable⟩

/-- Session state at /home used by the C4 scenarios. -/
def c4St : CrewState := ⟨[("home").toList], [("home").toList], []⟩

/-- C4 counterexample: the target of cd f exists (a regular file), yet
os.chdir fails, so the process working directory is not updated, while the
session working directory is left reassigned to the file. -/
theorem c4_counterexample :
    c4Fs.pathExists (resolveTarget c4St.workingDir
      (pstrip ((("cd f").toList).drop 3))) = true ∧
    (process_request c4Fs (fun s => (s, [])) c4St (("cd f").toList)).state.osCwd ≠
      resolveTarget c4St.workingDir (pstrip ((("cd f").toList).drop 3)) ∧
    (process_request c4Fs (fun s => (s, [])) c4St (("cd f").toList)).state.workingDir =
      resolveTarget c4St.workingDir (pstrip ((("cd f").toList).drop 3)) := by
  refine ⟨?_, ?_, ?_⟩ <;> decide

/-- Filesystem with an existing directory /tmp, used by the C4 witness. -/
def c4GoodFs : Fs :=
  ⟨fun p => decide (p = [("tmp").toList]), fun p => decide (p = [("tmp").toList]),
    fun _ => ReadOutcome.undecodable⟩

/-- C4 witness: cd to an existing directory updates both directories and
never consults the model. -/
theorem c4_witness :
    (process_request c4GoodFs (fun s => (s, [])) c4St
        (("cd /tmp").toList)).modelCalled = false ∧
    (process_request c4GoodFs (fun s => (s, [])) c4St
        (("cd /tmp").toList)).state.workingDir =
      resolveTarget c4St.workingDir (pstrip ((("cd /tmp").toList).drop 3)) ∧
    (process_request c4GoodFs (fun s => (s, [])) c4St
        (("cd /tmp").toList)).state.osCwd =
      resolveTarget c4St.workingDir (pstrip ((("cd /tmp").toList).drop 3)) := by
  have h := c4_cd_bypasses_model c4GoodFs (fun s => (s, [])) c4St
    (("cd /tmp").toList) (by decide)
  have h2 := h.2.1 (by decide) (by decide)
  exact ⟨h.1, h2.1, h2.2⟩

end TermAgent
